import Mathlib

/-!
Formal model of the caver-js signing/serialization core:
the role-based Keyring (keystore encryption/decryption, role fallback,
signing entry points) from packages/caver-wallet/src/keyring/keyring.js,
and the FeeDelegatedChainDataAnchoring transaction RLP codec.

Hex strings of the JavaScript source are modelled as the byte sequences
they denote (lists of naturals); numeric hex fields are modelled as the
natural numbers they denote.  External cryptographic primitives
(secp256k1, scrypt, pbkdf2, sha3, the block cipher) are parameters of
the model, as the spec treats them as trusted collaborators.
-/

namespace Caver

/-- Big-endian interpretation of a byte list as a natural number.
This is how a hex string such as 0x0005 denotes a number; the source's
trimLeadingZero normalization is invariant under this interpretation. -/
def beNat (l : List Nat) : Nat := l.foldl (fun acc b => acc * 256 + b) 0

/-- Minimal big-endian byte encoding of a natural number: the model of
eth-lib Bytes.fromNat (zero encodes as the empty byte string, no leading
zero byte otherwise). -/
def natToBE : Nat → List Nat
  | 0 => []
  | n + 1 => natToBE ((n + 1) / 256) ++ [(n + 1) % 256]
decreasing_by exact Nat.div_lt_self (Nat.succ_pos n) (by norm_num)

/-- An RLP value: a byte string or a list of RLP values (the nested array
shape eth-lib RLP operates on). -/
inductive Item where
  | bytes : List Nat → Item
  | list : List Item → Item

/-- RLP encoding of a byte string (eth-lib RLP.encode, byte-string case). -/
def rlpEncodeBytes (b : List Nat) : List Nat :=
  if b.length = 1 ∧ b.headD 0 < 128 then b
  else if b.length ≤ 55 then (128 + b.length) :: b
  else (183 + (natToBE b.length).length) :: (natToBE b.length ++ b)

mutual

/-- RLP encoding of an item (model of eth-lib RLP.encode on the nested
hex-string arrays the transaction code passes to it). -/
def rlpEncode : Item → List Nat
  | .bytes b => rlpEncodeBytes b
  | .list l =>
    let payload := rlpPayload l
    if payload.length ≤ 55 then (192 + payload.length) :: payload
    else (247 + (natToBE payload.length).length) :: (natToBE payload.length ++ payload)

/-- Concatenated RLP encodings of a list of items (an RLP list payload). -/
def rlpPayload : List Item → List Nat
  | [] => []
  | x :: xs => rlpEncode x ++ rlpPayload xs

end

mutual

/-- Fuel bound sufficient for the decoder to reproduce an item. -/
def itemFuel : Item → Nat
  | .bytes _ => 1
  | .list l => 1 + listFuel l

/-- Fuel bound sufficient for the decoder to reproduce a payload. -/
def listFuel : List Item → Nat
  | [] => 1
  | x :: xs => 1 + max (itemFuel x) (listFuel xs)

end

mutual

/-- Every byte-string component is short enough that its RLP length
header fits in the byte-string tag range (true of every value a real
hex string can denote). -/
def itemBounded : Item → Bool
  | .bytes b => decide (b.length < 256 ^ 8)
  | .list l => listBounded l

/-- Pointwise boundedness of a payload's items. -/
def listBounded : List Item → Bool
  | [] => true
  | x :: xs => itemBounded x && listBounded xs

end

mutual

/-- Fuel-indexed RLP decoder for one item, returning the item and the
unconsumed remainder (model of eth-lib RLP.decode's parser; it accepts
non-minimal numeric payloads, it does not reject them). -/
def rlpDecodeOne : Nat → List Nat → Option (Item × List Nat)
  | 0, _ => none
  | _ + 1, [] => none
  | fuel + 1, b :: rest =>
    if b < 128 then some (.bytes [b], rest)
    else if b < 184 then
      let len := b - 128
      if rest.length < len then none
      else some (.bytes (rest.take len), rest.drop len)
    else if b < 192 then
      let ll := b - 183
      if rest.length < ll then none
      else
        let len := beNat (rest.take ll)
        let r2 := rest.drop ll
        if r2.length < len then none
        else some (.bytes (r2.take len), r2.drop len)
    else if b < 248 then
      let len := b - 192
      if rest.length < len then none
      else
        match rlpDecodeList fuel (rest.take len) with
        | some items => some (.list items, rest.drop len)
        | none => none
    else
      let ll := b - 247
      if rest.length < ll then none
      else
        let len := beNat (rest.take ll)
        let r2 := rest.drop ll
        if r2.length < len then none
        else
          match rlpDecodeList fuel (r2.take len) with
          | some items => some (.list items, r2.drop len)
          | none => none

/-- Fuel-indexed decoder for a complete RLP list payload. -/
def rlpDecodeList : Nat → List Nat → Option (List Item)
  | 0, _ => none
  | _ + 1, [] => some []
  | fuel + 1, bytes =>
    match rlpDecodeOne fuel bytes with
    | some (item, rest) =>
      match rlpDecodeList fuel rest with
      | some items => some (item :: items)
      | none => none
    | none => none

end

/-- Top-level RLP decode of a complete encoding (must consume all input). -/
def rlpDecode (bytes : List Nat) : Option Item :=
  match rlpDecodeOne (2 * bytes.length) bytes with
  | some (item, []) => some item
  | _ => none

/-! ## Transaction model: FeeDelegatedChainDataAnchoring -/

/-- Generic error outcome of the transaction code (each constructor stands
for one of the thrown Error classes of the JavaScript source; typeError
stands for a TypeError the engine raises on degenerate input). -/
inductive TxErr where
  | tagMismatch
  | rlpError
  | badShape
  | invalidAddress
  | invalidInput
  | inputAndData
  | undefinedField

deriving DecidableEq

/-- Whether an Except outcome is an error (a thrown JavaScript exception). -/
def isError {ε α : Type} : Except ε α → Bool
  | .error _ => true
  | .ok _ => false

/-- Address-format check (caver-utils isAddress, modelled from the spec:
caver-utils is not under src/; an address is 20 bytes of a hex string,
compared case-insensitively, so at the byte level a list of 20 bytes). -/
def isAddress (a : List Nat) : Bool := a.length == 20 && a.all (· < 256)

/-- A signature triple (v, r, s) of byte strings. -/
structure SignatureData where
  v : List Nat
  r : List Nat
  s : List Nat

deriving DecidableEq

/-- Modelled from the spec: the fixed type tag of the
FeeDelegatedChainDataAnchoring variant (the type-tag table lives in the
transactionHelper collaborator, which is not under src/; the tag is one
fixed byte, unique in the family). -/
def TX_TYPE_TAG : Nat := 73

/-- The FeeDelegatedChainDataAnchoring transaction state: nonce, gasPrice
and gas are the numeric values of the stored minimal hex strings (kept
optional, as the source allows them undefined until encoding validates
them); addresses and input are byte strings; the two signature lists are
ordered. -/
structure FDCDATx where
  nonce : Option Nat
  gasPrice : Option Nat
  gas : Option Nat
  fromAddress : List Nat
  input : List Nat
  signatures : List SignatureData
  feePayer : List Nat
  feePayerSignatures : List SignatureData

deriving DecidableEq

/-- The createTxObj parameter of the constructor: every property may be
absent (undefined). -/
structure CreateTxObj where
  nonce : Option Nat := none
  gasPrice : Option Nat := none
  gas : Option Nat := none
  fromAddress : Option (List Nat) := none
  input : Option (List Nat) := none
  data : Option (List Nat) := none
  signatures : Option (List SignatureData) := none
  feePayer : Option (List Nat) := none
  feePayerSignatures : Option (List SignatureData) := none

deriving DecidableEq

/-- The FeeDelegatedChainDataAnchoring constructor on an object argument.
Order follows the source: the abstract-transaction base constructor runs
first (modelled from the spec: abstractFeeDelegatedTransaction is not
under src/ — it stores the numeric fields and the signature lists, and
validates the feePayer address, defaulting it to the zero address when
absent), then the from setter validates, then the input/data aliasing
check, then the input setter (which rejects a missing value).  An error
means no transaction object is produced. -/
def mkFDCDATx (obj : CreateTxObj) : Except TxErr FDCDATx := do
  let feePayer ←
    match obj.feePayer with
    | none => Except.ok (List.replicate 20 0)
    | some f => if isAddress f then Except.ok f else Except.error .invalidAddress
  let signatures := obj.signatures.getD []
  let feePayerSignatures := obj.feePayerSignatures.getD []
  let fromAddress ←
    match obj.fromAddress with
    | none => Except.error TxErr.invalidAddress
    | some f => if isAddress f then Except.ok f else Except.error .invalidAddress
  if obj.input.isSome && obj.data.isSome then
    Except.error .inputAndData
  else
    match obj.input.orElse (fun _ => obj.data) with
    | none => Except.error .invalidInput
    | some i =>
      Except.ok { nonce := obj.nonce, gasPrice := obj.gasPrice, gas := obj.gas,
                  fromAddress := fromAddress, input := i, signatures := signatures,
                  feePayer := feePayer, feePayerSignatures := feePayerSignatures }

/-- RLP item of one signature triple. -/
def sigToItem (s : SignatureData) : Item := .list [.bytes s.v, .bytes s.r, .bytes s.s]

/-- Reading one decoded signature triple back. -/
def itemToSig : Item → Option SignatureData
  | .list [.bytes v, .bytes r, .bytes s] => some ⟨v, r, s⟩
  | _ => none

/-- Reading a decoded signature list back. -/
def sigListOfItems : List Item → Option (List SignatureData)
  | [] => some []
  | x :: xs =>
    match itemToSig x, sigListOfItems xs with
    | some s, some ss => some (s :: ss)
    | _, _ => none

/-- A decoded numeric field: absent stays absent; a byte string denotes
its number (this is where the source applies utils.trimLeadingZero, which
at the numeric level is the identity of the big-endian value); a nested
list crashes trimLeadingZero. -/
def decodeNatField : Option Item → Except TxErr (Option Nat)
  | none => Except.ok none
  | some (.bytes b) => Except.ok (some (beNat b))
  | some (.list _) => Except.error .badShape

/-- A decoded byte-string field (from, input, feePayer). -/
def decodeBytesField : Option Item → Except TxErr (Option (List Nat))
  | none => Except.ok none
  | some (.bytes b) => Except.ok (some b)
  | some (.list _) => Except.error .badShape

/-- A decoded signature-list field. -/
def decodeSigsField : Option Item → Except TxErr (Option (List SignatureData))
  | none => Except.ok none
  | some (.bytes _) => Except.error .badShape
  | some (.list l) =>
    match sigListOfItems l with
    | some sigs => Except.ok (some sigs)
    | none => Except.error .badShape

/-- The module-private decode helper of the source: checks that the input
starts with the variant's type tag, strips it, RLP-decodes the rest and
builds the constructor argument object, trimming leading zero bytes off
the numeric fields. -/
def txDecodeObj (rlpEncoded : List Nat) : Except TxErr CreateTxObj :=
  match rlpEncoded with
  | [] => Except.error .tagMismatch
  | t :: rest =>
    if t = TX_TYPE_TAG then
      match rlpDecode rest with
      | some (.list items) => do
        let nonce ← decodeNatField items[0]?
        let gasPrice ← decodeNatField items[1]?
        let gas ← decodeNatField items[2]?
        let fromAddress ← decodeBytesField items[3]?
        let input ← decodeBytesField items[4]?
        let signatures ← decodeSigsField items[5]?
        let feePayer ← decodeBytesField items[6]?
        let feePayerSignatures ← decodeSigsField items[7]?
        Except.ok { nonce := nonce, gasPrice := gasPrice, gas := gas,
                    fromAddress := fromAddress, input := input, data := none,
                    signatures := signatures, feePayer := feePayer,
                    feePayerSignatures := feePayerSignatures }
      | _ => Except.error .rlpError
    else Except.error .tagMismatch

/-- FeeDelegatedChainDataAnchoring.decode: the decode helper followed by
the constructor. -/
def FDCDATx.decode (rlpEncoded : List Nat) : Except TxErr FDCDATx := do
  let obj ← txDecodeObj rlpEncoded
  mkFDCDATx obj

/-- The eight wire fields of the transaction as RLP items, with explicit
byte strings for the three numeric slots. -/
def txWireItems (nb gpb gb fromA inp fp : List Nat) (sigs fpsigs : List SignatureData) : List Item :=
  [.bytes nb, .bytes gpb, .bytes gb, .bytes fromA, .bytes inp,
   .list (sigs.map sigToItem), .bytes fp, .list (fpsigs.map sigToItem)]

/-- getRLPEncoding: validates that the numeric fields are defined
(validateOptionalValues, modelled from the spec: the abstract base class
is not under src/), then emits the type tag followed by the RLP of the
eight-field tuple with minimal big-endian numeric encodings
(Bytes.fromNat). -/
def getRLPEncoding (tx : FDCDATx) : Except TxErr (List Nat) :=
  match tx.nonce, tx.gasPrice, tx.gas with
  | some n, some gp, some g =>
    Except.ok (TX_TYPE_TAG ::
      rlpEncode (.list (txWireItems (natToBE n) (natToBE gp) (natToBE g)
        tx.fromAddress tx.input tx.feePayer tx.signatures tx.feePayerSignatures)))
  | _, _, _ => Except.error .undefinedField

/-- A wire encoding of the transaction in which the three numeric fields
carry the given number of leading zero padding bytes (a non-minimal but
RLP-well-formed encoding of the same logical values). -/
def paddedTxEncoding (tx : FDCDATx) (p1 p2 p3 : Nat) : List Nat :=
  TX_TYPE_TAG ::
    rlpEncode (.list (txWireItems
      (List.replicate p1 0 ++ natToBE (tx.nonce.getD 0))
      (List.replicate p2 0 ++ natToBE (tx.gasPrice.getD 0))
      (List.replicate p3 0 ++ natToBE (tx.gas.getD 0))
      tx.fromAddress tx.input tx.feePayer tx.signatures tx.feePayerSignatures))

/-- Byte strings of a signature triple are short enough for RLP headers. -/
def sigWellFormed (s : SignatureData) : Bool :=
  decide (s.v.length < 256 ^ 8) && decide (s.r.length < 256 ^ 8) && decide (s.s.length < 256 ^ 8)

/-! ## Keyring model -/

/-- Modelled from the spec: the KEY_ROLE constants of keyringHelper (not
under src/): TransactionKey is 0, AccountUpdateKey 1, FeePayerKey 2,
RoleLast 3. -/
def RoleTransactionKey : Nat := 0

/-- Role index of AccountUpdateKey. -/
def RoleAccountUpdateKey : Nat := 1

/-- Role index of FeePayerKey. -/
def RoleFeePayerKey : Nat := 2

/-- Number of roles. -/
def RoleLast : Nat := 3

/-- Modelled from the spec: the fixed maximum number of keys per role
(keyringHelper is not under src/; the spec names 10 as the value). -/
def MAXIMUM_KEY_NUM : Nat := 10

/-- Error outcomes of the keyring code; each constructor stands for one
of the thrown Error messages of the source (typeError for an engine
TypeError on degenerate access). -/
inductive KErr where
  | roleUndefined
  | typeError
  | emptyDefaultRole
  | invalidHash
  | chainIdUndefined
  | negativeIndex
  | indexOutOfRange
  | unsupportedKdf
  | unsupportedPbkdf2Params
  | macMismatch
  | unsupportedCipher
  | invalidPrivateKey
  | invalidKeyFormat
  | invalidAddress
  | maxKeyNum
  | invalidV3Format
  | invalidV4Format
  | cryptoAndKeyring
  | notAvailableV3

deriving DecidableEq

/-- Modelled from the spec: a PrivateKey (privateKey.js is not under
src/) is an opaque well-formed 32-byte secp256k1 scalar; only the scalar
bytes are observable state. -/
structure PrivateKey where
  privateKey : List Nat

deriving DecidableEq

/-- Modelled from the spec: PrivateKey construction fails unless the
input is a well-formed 32-byte private key (this also rejects an absent
value and the longer KlaytnWalletKey format). -/
def mkPrivateKey (mat : Option (List Nat)) : Except KErr PrivateKey :=
  match mat with
  | none => Except.error .invalidPrivateKey
  | some b => if b.length = 32 then Except.ok ⟨b⟩ else Except.error .invalidPrivateKey

/-- A Keyring: a canonical (lower-cased, so here byte-level) address plus
the role-partitioned key lists (three lists for every keyring the
factories produce). -/
structure Keyring where
  address : List Nat
  keys : List (List PrivateKey)

deriving DecidableEq

/-- Strict transaction-hash check (caver-utils isValidHashStrict,
modelled from the spec: exactly 0x plus 64 hex characters, so exactly 32
bytes). -/
def isValidHashStrict (h : List Nat) : Bool := h.length == 32 && h.all (· < 256)

/-- getKeyByRole: returns the requested role's key list; a role above
TransactionKey with an empty list falls back to TransactionKey's list
and fails when that is also empty; an undefined role fails; an
out-of-range role index crashes on the undefined list (typeError). -/
def Keyring.getKeyByRole (kr : Keyring) (role : Option Nat) : Except KErr (List PrivateKey) :=
  match role with
  | none => Except.error .roleUndefined
  | some r =>
    match kr.keys[r]? with
    | none => Except.error .typeError
    | some key =>
      if key.length = 0 ∧ r > RoleTransactionKey then
        match kr.keys[RoleTransactionKey]? with
        | none => Except.error .typeError
        | some tk =>
          if tk.length = 0 then Except.error .emptyDefaultRole
          else Except.ok tk
      else Except.ok key

/-- Modelled from the spec: PrivateKey.sign (privateKey.js is not under
src/) validates that the digest is a strict 32-byte hash and defers to
the trusted secp256k1 primitive; chain-id normalization to a minimal hex
integer is the identity on the numeric value. -/
def PrivateKey.sign {σ : Type} (ecsign : PrivateKey → List Nat → Nat → σ)
    (k : PrivateKey) (digest : List Nat) (chainId : Nat) : Except KErr σ :=
  if !isValidHashStrict digest then Except.error .invalidHash
  else Except.ok (ecsign k digest chainId)

/-- signWithKey: validates the hash, requires chainId and role defined,
resolves the key list through getKeyByRole, bounds-checks the index and
delegates to the selected key's sign. -/
def Keyring.signWithKey {σ : Type} (ecsign : PrivateKey → List Nat → Nat → σ)
    (kr : Keyring) (transactionHash : List Nat) (chainId : Option Nat)
    (role : Option Nat) (index : Int) : Except KErr σ :=
  if !isValidHashStrict transactionHash then Except.error .invalidHash
  else
    match chainId with
    | none => Except.error .chainIdUndefined
    | some cid =>
      match role with
      | none => Except.error .roleUndefined
      | some r => do
        let keys ← kr.getKeyByRole (some r)
        if index < 0 then Except.error .negativeIndex
        else if (keys.length : Int) ≤ index then Except.error .indexOutOfRange
        else
          match keys[index.toNat]? with
          | some k => PrivateKey.sign ecsign k transactionHash cid
          | none => Except.error .typeError

/-- isDecoupled: true when some role holds more than one key; otherwise
compares the stored address with the address derived from the first
TransactionKey key (derivation by the trusted secp256k1 primitive,
passed as a parameter; comparison is case-insensitive in the source,
hence plain byte equality here).  With at most one key everywhere and an
empty TransactionKey list the source crashes reading a property of
undefined. -/
def Keyring.isDecoupled (derive : PrivateKey → List Nat) (kr : Keyring) : Except KErr Bool :=
  if kr.keys.any (fun l => l.length > 1) then Except.ok true
  else
    match (kr.keys[0]?.getD [])[0]? with
    | none => Except.error .typeError
    | some k => Except.ok (decide (kr.address ≠ derive k))

/-! ## Keystore codec model -/

/-- The cryptographic collaborators of the keystore codec, abstract
parameters of the model: the two KDFs, the sha3 hash, the block cipher
pair, the supported-cipher test of createCipheriv, and the secure random
source (a deterministic stand-in; round trips never depend on it). -/
structure CryptoPrims where
  scrypt : List Nat → List Nat → Nat → Nat → Nat → Nat → List Nat
  pbkdf2 : List Nat → List Nat → Nat → Nat → List Nat
  sha3 : List Nat → List Nat
  cipherEnc : String → List Nat → List Nat → List Nat → List Nat
  cipherDec : String → List Nat → List Nat → List Nat → List Nat
  cipherSupported : String → Bool
  randomBytes : Nat → List Nat

/-- The kdfparams object stored in a keystore crypto object; fields not
set by the producing branch stay absent. -/
structure KdfParams where
  dklen : Nat
  salt : List Nat
  c : Option Nat := none
  prf : Option String := none
  n : Option Nat := none
  r : Option Nat := none
  p : Option Nat := none

deriving DecidableEq

/-- One keystore crypto object: ciphertext, cipherparams.iv, cipher and
kdf names, kdfparams and the stored mac. -/
structure CryptoObj where
  ciphertext : List Nat
  iv : List Nat
  cipher : String
  kdf : String
  kdfparams : KdfParams
  mac : List Nat

deriving DecidableEq

/-- One element of a keystore's keyring JSON array: either a crypto
object (flat form) or an array of crypto objects (role-partitioned
form); the source distinguishes them with an isArray test. -/
inductive KElem where
  | obj : CryptoObj → KElem
  | arr : List CryptoObj → KElem

deriving DecidableEq

/-- A keystore record; crypto carries the v3 payload, keyring the v4
payload. -/
structure Keystore where
  version : Nat
  id : List Nat
  address : List Nat
  crypto : Option KElem := none
  keyring : Option (List KElem) := none

deriving DecidableEq

/-- The encryption options object; every field may be absent. -/
structure EncOptions where
  salt : Option (List Nat) := none
  iv : Option (List Nat) := none
  kdf : Option String := none
  dklen : Option Nat := none
  c : Option Nat := none
  n : Option Nat := none
  r : Option Nat := none
  p : Option Nat := none
  cipher : Option String := none
  uuid : Option (List Nat) := none

deriving DecidableEq

/-- JavaScript option defaulting for numbers (the source uses the
or-operator, so a present zero still falls to the default). -/
def jsOrNat (o : Option Nat) (d : Nat) : Nat :=
  match o with
  | some v => if v = 0 then d else v
  | none => d

/-- JavaScript option defaulting for strings (an empty string falls to
the default). -/
def jsOrStr (o : Option String) (d : String) : String :=
  match o with
  | some v => if v = "" then d else v
  | none => d

/-- Key re-derivation from a stored crypto object (the kdf branch of the
per-key decryption loop): scrypt and pbkdf2 with prf hmac-sha256 are
supported, anything else is a hard error. -/
def deriveKey (P : CryptoPrims) (e : CryptoObj) (password : List Nat) : Except KErr (List Nat) :=
  if e.kdf = "scrypt" then
    Except.ok (P.scrypt password e.kdfparams.salt (e.kdfparams.n.getD 0)
      (e.kdfparams.r.getD 0) (e.kdfparams.p.getD 0) e.kdfparams.dklen)
  else if e.kdf = "pbkdf2" then
    if e.kdfparams.prf ≠ some "hmac-sha256" then Except.error .unsupportedPbkdf2Params
    else Except.ok (P.pbkdf2 password e.kdfparams.salt (e.kdfparams.c.getD 0) e.kdfparams.dklen)
  else Except.error .unsupportedKdf

/-- Per-crypto-object decryption (one iteration of decryptKey's loop):
re-derive the key, recompute mac over derivedKey bytes 16..31 followed
by the ciphertext, compare with the stored mac before any decipher step
(mismatch is the wrong-password failure), then decipher. -/
def decryptKeyOne (P : CryptoPrims) (e : CryptoObj) (password : List Nat) : Except KErr (List Nat) :=
  match deriveKey P e password with
  | .error er => Except.error er
  | .ok derivedKey =>
    if P.sha3 ((derivedKey.drop 16).take 16 ++ e.ciphertext) ≠ e.mac then Except.error .macMismatch
    else if !(P.cipherSupported e.cipher) then Except.error .unsupportedCipher
    else Except.ok (P.cipherDec e.cipher (derivedKey.take 16) e.iv e.ciphertext)

/-- decryptKey's loop over a non-empty crypto-object array. -/
def decryptKeyList (P : CryptoPrims) (l : List CryptoObj) (password : List Nat) :
    Except KErr (List (List Nat)) :=
  l.mapM (fun e => decryptKeyOne P e password)

/-- decryptKey applied to one role slot of the role-partitioned form: an
absent or empty slot yields no keys (the caller pushes an empty list); a
crypto object where an array is expected makes the for-of loop crash. -/
def decryptRoleSlot (P : CryptoPrims) (slot : Option KElem) (password : List Nat) :
    Except KErr (List (Option (List Nat))) :=
  match slot with
  | none => Except.ok []
  | some (.obj _) => Except.error .typeError
  | some (.arr []) => Except.ok []
  | some (.arr l) => (decryptKeyList P l password).map (fun ks => ks.map some)

/-- decryptKey applied to the whole keyring array in the flat form: an
empty array yields undefined; an array element that is itself an array
has no kdf property and hits the unsupported-kdf error. -/
def decryptFlat (P : CryptoPrims) (l : List KElem) (password : List Nat) :
    Except KErr (Option (List (List Nat))) :=
  match l with
  | [] => Except.ok none
  | _ =>
    (l.mapM (fun (e : KElem) =>
      match e with
      | .obj c => decryptKeyOne P c password
      | .arr _ => Except.error .unsupportedKdf)).map some

/-- Continuation of encryptKeyOne after key derivation: createCipheriv
(unsupported cipher is a hard error), ciphering of the private-key
bytes, the mac, and the assembled crypto object. -/
def encryptFinish (P : CryptoPrims) (pk : PrivateKey) (kdfName cipherName : String)
    (params : KdfParams) (derivedKey ivv : List Nat) : Except KErr CryptoObj :=
  if !(P.cipherSupported cipherName) then Except.error .unsupportedCipher
  else
    let ciphertext := P.cipherEnc cipherName (derivedKey.take 16) ivv pk.privateKey
    Except.ok { ciphertext := ciphertext, iv := ivv, cipher := cipherName, kdf := kdfName,
                kdfparams := params,
                mac := P.sha3 ((derivedKey.drop 16).take 16 ++ ciphertext) }

/-- Per-key encryption (one iteration of encryptKey's loop): salt and iv
from the options or the random source, kdf selection with defaults,
derivation, ciphering of the 32 private-key bytes, and the mac over
derivedKey bytes 16..31 followed by the ciphertext. -/
def encryptKeyOne (P : CryptoPrims) (pk : PrivateKey) (password : List Nat)
    (options : EncOptions) : Except KErr CryptoObj :=
  let salt := options.salt.getD (P.randomBytes 32)
  let ivv := options.iv.getD (P.randomBytes 16)
  let kdf := jsOrStr options.kdf "scrypt"
  let dklen := jsOrNat options.dklen 32
  let cipherName := jsOrStr options.cipher "aes-128-ctr"
  if kdf = "pbkdf2" then
    let cc := jsOrNat options.c 262144
    encryptFinish P pk kdf cipherName
      { dklen := dklen, salt := salt, c := some cc, prf := some "hmac-sha256" }
      (P.pbkdf2 password salt cc dklen) ivv
  else if kdf = "scrypt" then
    let nn := jsOrNat options.n 4096
    let rr := jsOrNat options.r 8
    let pp := jsOrNat options.p 1
    encryptFinish P pk kdf cipherName
      { dklen := dklen, salt := salt, n := some nn, r := some rr, p := some pp }
      (P.scrypt password salt nn rr pp dklen) ivv
  else Except.error .unsupportedKdf

/-- encryptKey's loop over a role's key list (an empty list encrypts to
an empty array). -/
def encryptKeyList (P : CryptoPrims) (keys : List PrivateKey) (password : List Nat)
    (options : EncOptions) : Except KErr (List CryptoObj) :=
  keys.mapM (fun k => encryptKeyOne P k password options)

/-- formatEncrypted for version 3: the crypto field receives the array
encryptKey returned. -/
def formatEncrypted3 (P : CryptoPrims) (address : List Nat) (crypto : List CryptoObj)
    (options : EncOptions) : Keystore :=
  { version := 3, id := options.uuid.getD (P.randomBytes 16), address := address,
    crypto := some (.arr crypto), keyring := none }

/-- formatEncrypted for version 4: the keyring field receives the
per-role or flat array. -/
def formatEncrypted4 (P : CryptoPrims) (address : List Nat) (keyring : List KElem)
    (options : EncOptions) : Keystore :=
  { version := 4, id := options.uuid.getD (P.randomBytes 16), address := address,
    crypto := none, keyring := some keyring }

/-- Keyring.prototype.encrypt: encrypts every role's keys independently;
when some role above TransactionKey is non-empty the keyring field is
the three-list form, otherwise the flat list of TransactionKey's crypto
objects. -/
def Keyring.encrypt (P : CryptoPrims) (kr : Keyring) (password : List Nat)
    (options : EncOptions) : Except KErr Keystore := do
  let k0 := kr.keys[0]?.getD []
  let k1 := kr.keys[1]?.getD []
  let k2 := kr.keys[2]?.getD []
  let e0 ← encryptKeyList P k0 password options
  let e1 ← encryptKeyList P k1 password options
  let e2 ← encryptKeyList P k2 password options
  let field : List KElem :=
    if k1.length > 0 ∨ k2.length > 0 then [.arr e0, .arr e1, .arr e2] else e0.map .obj
  Except.ok (formatEncrypted4 P kr.address field options)

/-- Keyring.prototype.encryptV3: rejects more than one TransactionKey
key or any key in another role, then encrypts the first TransactionKey
key (an absent key makes encryptKey return an empty array). -/
def Keyring.encryptV3 (P : CryptoPrims) (kr : Keyring) (password : List Nat)
    (options : EncOptions) : Except KErr Keystore := do
  if (kr.keys[0]?.getD []).length > 1 then Except.error .notAvailableV3
  else if (kr.keys[1]?.getD []).length > 0 then Except.error .notAvailableV3
  else if (kr.keys[2]?.getD []).length > 0 then Except.error .notAvailableV3
  else do
    let crypto ←
      match (kr.keys[0]?.getD [])[0]? with
      | none => Except.ok ([] : List CryptoObj)
      | some k => (encryptKeyOne P k password options).map (fun c => [c])
    Except.ok (formatEncrypted3 P kr.address crypto options)

/-- Modelled from the spec: keyringHelper's isRoleBasedKeysFormat (not
under src/): a role-based key argument is a list of at most RoleLast
per-role lists. -/
def isRoleBasedKeysFormat (keys : List (List (Option (List Nat)))) : Bool :=
  decide (keys.length ≤ RoleLast)

/-- fillRoleKey for one role: an absent slot keeps the role empty, an
oversized slot is rejected, every entry must construct a PrivateKey. -/
def fillRoleKey (keyInput : List (List (Option (List Nat)))) (i : Nat) :
    Except KErr (List PrivateKey) :=
  match keyInput[i]? with
  | none => Except.ok []
  | some l =>
    if l.length > MAXIMUM_KEY_NUM then Except.error .maxKeyNum
    else l.mapM mkPrivateKey

/-- formattingForKeyInKeyring restricted to the two-dimensional shape the
decryption path produces (a list of per-role lists of key strings, an
entry possibly undefined). -/
def formattingForKeyInKeyring (keyInput : List (List (Option (List Nat)))) :
    Except KErr (List (List PrivateKey)) := do
  let k0 ← fillRoleKey keyInput 0
  let k1 ← fillRoleKey keyInput 1
  let k2 ← fillRoleKey keyInput 2
  Except.ok [k0, k1, k2]

/-- Keyring.createWithRoleBasedKey: shape check, then the constructor
(address setter validation first, then key formatting). -/
def Keyring.createWithRoleBasedKey (address : List Nat)
    (keys : List (List (Option (List Nat)))) : Except KErr Keyring := do
  if !isRoleBasedKeysFormat keys then Except.error .invalidKeyFormat
  else if !isAddress address then Except.error .invalidAddress
  else (formattingForKeyInKeyring keys).map (fun ks => ⟨address, ks⟩)

/-- Keyring.decrypt: the version check only warns; a version-3 record
without crypto and a version-4 record without keyring are rejected, as
is a record with both crypto and keyring; a crypto payload is wrapped as
a one-element keyring array; the keyring array is then read in the
role-partitioned form when its first element is an array, in the flat
form otherwise (with the flat result padded with RoleLast minus its
length empty role lists), and the keys go through
createWithRoleBasedKey. -/
def Keyring.decrypt (P : CryptoPrims) (ks : Keystore) (password : List Nat) :
    Except KErr Keyring := do
  if ks.version = 3 ∧ ks.crypto.isNone then Except.error .invalidV3Format
  else if ks.version = 4 ∧ ks.keyring.isNone then Except.error .invalidV4Format
  else do
    let kfield ←
      match ks.crypto with
      | some c =>
        if ks.keyring.isSome then Except.error .cryptoAndKeyring
        else Except.ok [c]
      | none =>
        match ks.keyring with
        | some k => Except.ok k
        | none => Except.error .typeError
    match kfield.head? with
    | some (.arr _) => do
      let s0 ← decryptRoleSlot P kfield[0]? password
      let s1 ← decryptRoleSlot P kfield[1]? password
      let s2 ← decryptRoleSlot P kfield[2]? password
      Keyring.createWithRoleBasedKey ks.address [s0, s1, s2]
    | _ => do
      let dec ← decryptFlat P kfield password
      let decrypted : List (Option (List Nat)) :=
        match dec with
        | none => [none]
        | some l => l.map some
      Keyring.createWithRoleBasedKey ks.address
        ([decrypted] ++ List.replicate (RoleLast - decrypted.length) [])

/-- A concrete instantiation of the cryptographic collaborators, used to
evaluate the model on closed inputs (the cipher pair is an involution,
so deciphering inverts ciphering as the real aes-128-ctr does). -/
def testPrims : CryptoPrims :=
  { scrypt := fun pw salt n r p dklen => (pw ++ salt ++ [n, r, p, dklen]).take 32 ++
      List.replicate (32 - (pw ++ salt ++ [n, r, p, dklen]).length) 1
    pbkdf2 := fun pw salt c dklen => (pw ++ salt ++ [c, dklen]).take 32 ++
      List.replicate (32 - (pw ++ salt ++ [c, dklen]).length) 2
    sha3 := fun l => [l.length % 256, (l.foldl (fun a b => a + b) 0) % 256]
    cipherEnc := fun _ _ _ data => data.reverse
    cipherDec := fun _ _ _ data => data.reverse
    cipherSupported := fun _ => true
    randomBytes := fun n => List.replicate n 7 }

deriving instance DecidableEq for Except

/-! ## Claim theorems, witnesses and counterexamples -/

/-- A 20-byte test address. -/
def w20 : List Nat := List.replicate 20 1

/-- A 32-byte test private key. -/
def wPk : PrivateKey := ⟨List.replicate 32 2⟩

/-- A second 32-byte test private key. -/
def wPk2 : PrivateKey := ⟨List.replicate 32 3⟩

/-- A test password. -/
def wPw : List Nat := [10, 20]

/-- A keystore crypto object whose stored mac does not match the one
recomputed from the derived key and ciphertext. -/
def c1Obj : CryptoObj :=
  { ciphertext := [1, 2], iv := [4], cipher := "aes-128-ctr", kdf := "scrypt",
    kdfparams := { dklen := 32, salt := [5] }, mac := [0] }

/-- A keyring with one transaction key and one account-update key. -/
def c2Kr : Keyring := ⟨w20, [[wPk], [wPk2], []]⟩

/-- A placeholder keystore (never produced by the model). -/
def dummyKeystore : Keystore := { version := 0, id := [], address := [] }

/-- A valid 32-byte digest for the signing witness. -/
def c4Hash : List Nat := List.replicate 32 9

/-- A concrete stand-in for the secp256k1 signing primitive. -/
def c4Ecsign : PrivateKey → List Nat → Nat → Nat :=
  fun k d c => k.privateKey.length + d.length + c

/-- The address the first key of c5Kr derives under c5Derive. -/
def c5Derive : PrivateKey → List Nat := fun k => k.privateKey.take 20

/-- A keyring with exactly one key in TransactionKey and exactly one in
AccountUpdateKey whose address matches the first key's derived
address. -/
def c5Kr : Keyring := ⟨List.replicate 20 2, [[wPk], [wPk2], []]⟩

/-- A concrete transaction exercising the round trip, with a zero
nonce. -/
def c6Tx : FDCDATx :=
  { nonce := some 0
    gasPrice := some 25
    gas := some 90000
    fromAddress := List.replicate 20 4
    input := [18, 52]
    signatures := [⟨[37], [9], [8]⟩]
    feePayer := List.replicate 20 5
    feePayerSignatures := [⟨[38], [7], [6]⟩] }

/-! ## Theorems -/

theorem beNat_nil : beNat [] = 0 := rfl

theorem beNat_append_singleton (xs : List Nat) (b : Nat) :
    beNat (xs ++ [b]) = 256 * beNat xs + b := by
  unfold beNat
  rw [List.foldl_append]
  simp [Nat.mul_comm]

theorem beNat_natToBE (n : Nat) : beNat (natToBE n) = n := by
  induction n using Nat.strong_induction_on with
  | _ n ih =>
    match n with
    | 0 => simp [natToBE, beNat]
    | m + 1 =>
      rw [natToBE, beNat_append_singleton, ih ((m + 1) / 256) (Nat.div_lt_self (Nat.succ_pos m) (by norm_num))]
      omega

theorem beNat_cons_zero (l : List Nat) : beNat (0 :: l) = beNat l := by
  unfold beNat
  simp

theorem beNat_replicate_zero (k : Nat) (l : List Nat) :
    beNat (List.replicate k 0 ++ l) = beNat l := by
  induction k with
  | zero => simp
  | succ m ih =>
    rw [List.replicate_succ, List.cons_append, beNat_cons_zero]
    exact ih

theorem natToBE_ne_nil (n : Nat) (h : 0 < n) : natToBE n ≠ [] := by
  match n, h with
  | m + 1, _ =>
    rw [natToBE]
    simp

theorem natToBE_length_le (n k : Nat) (h : n < 256 ^ k) : (natToBE n).length ≤ k := by
  induction n using Nat.strong_induction_on generalizing k with
  | _ n ih =>
    match n with
    | 0 => simp [natToBE]
    | m + 1 =>
      rw [natToBE]
      have hk : k ≠ 0 := by
        intro hk0
        subst hk0
        rw [pow_zero] at h
        omega
      obtain ⟨k', rfl⟩ := Nat.exists_eq_succ_of_ne_zero hk
      have hdiv : (m + 1) / 256 < 256 ^ k' := by
        have : (m + 1) < 256 * 256 ^ k' := by
          rw [pow_succ] at h
          omega
        exact Nat.div_lt_of_lt_mul (by omega)
      have := ih ((m + 1) / 256) (Nat.div_lt_self (Nat.succ_pos m) (by norm_num)) k' hdiv
      simp only [List.length_append, List.length_cons, List.length_nil]
      omega

theorem rlpEncodeBytes_length_pos (b : List Nat) : 0 < (rlpEncodeBytes b).length := by
  unfold rlpEncodeBytes
  split
  · next h => omega
  · split <;> simp

theorem rlpEncode_length_pos (it : Item) : 0 < (rlpEncode it).length := by
  match it with
  | .bytes b => exact rlpEncodeBytes_length_pos b
  | .list l =>
    unfold rlpEncode
    dsimp only
    split <;> simp

theorem rlpPayload_cons (x : Item) (xs : List Item) :
    rlpPayload (x :: xs) = rlpEncode x ++ rlpPayload xs := rfl

theorem fuel_bound : ∀ n : Nat,
    (∀ it : Item, sizeOf it ≤ n → itemFuel it ≤ 2 * (rlpEncode it).length) ∧
    (∀ l : List Item, sizeOf l ≤ n → listFuel l ≤ 2 * (rlpPayload l).length + 1) := by
  intro n
  induction n with
  | zero =>
    constructor
    · intro it h
      exfalso
      cases it <;> simp at h
    · intro l h
      exfalso
      cases l <;> simp at h
  | succ n ih =>
    constructor
    · intro it h
      match it with
      | .bytes b =>
        have := rlpEncodeBytes_length_pos b
        simp only [itemFuel, rlpEncode]
        omega
      | .list l =>
        have hl : sizeOf l ≤ n := by
          simp at h
          omega
        have h2 := ih.2 l hl
        simp only [itemFuel]
        unfold rlpEncode
        dsimp only
        split
        · simp only [List.length_cons]
          omega
        · simp only [List.length_cons, List.length_append]
          omega
    · intro l h
      match l with
      | [] => simp [listFuel, rlpPayload]
      | x :: xs =>
        have hx : sizeOf x ≤ n ∧ sizeOf xs ≤ n := by
          simp at h
          omega
        have h1 := ih.1 x hx.1
        have h2 := ih.2 xs hx.2
        have hpos := rlpEncode_length_pos x
        simp only [listFuel, rlpPayload_cons, List.length_append]
        omega

theorem rlp_roundtrip : ∀ fuel : Nat,
    (∀ it rest, itemBounded it = true → itemFuel it ≤ fuel →
      rlpDecodeOne fuel (rlpEncode it ++ rest) = some (it, rest)) ∧
    (∀ l, listBounded l = true → listFuel l ≤ fuel →
      rlpDecodeList fuel (rlpPayload l) = some l) := by
  intro fuel
  induction fuel with
  | zero =>
    constructor
    · intro it rest _ hf
      exfalso
      cases it <;> simp [itemFuel] at hf
    · intro l _ hf
      exfalso
      cases l <;> simp [listFuel] at hf
  | succ fuel ih =>
    constructor
    · intro it rest hb hf
      match it with
      | .bytes b =>
        simp only [itemBounded, decide_eq_true_eq] at hb
        show rlpDecodeOne (fuel + 1) (rlpEncodeBytes b ++ rest) = some (.bytes b, rest)
        unfold rlpEncodeBytes
        split
        · next hsing =>
          obtain ⟨x, rfl⟩ := List.length_eq_one.mp hsing.1
          have hx : x < 128 := by simpa using hsing.2
          simp [rlpDecodeOne, hx]
        · next hnsing =>
          split
          · next hshort =>
            rw [List.cons_append]
            rw [rlpDecodeOne]
            rw [if_neg (by omega), if_pos (by omega)]
            simp only [Nat.add_sub_cancel_left]
            rw [if_neg (by simp)]
            rw [List.take_left, List.drop_left]
          · next hlong =>
            have hlen55 : 55 < b.length := by omega
            have hll1 : 1 ≤ (natToBE b.length).length := by
              have := natToBE_ne_nil b.length (by omega)
              cases hc : natToBE b.length with
              | nil => exact absurd hc this
              | cons y ys => simp [hc]
            have hll8 : (natToBE b.length).length ≤ 8 := natToBE_length_le b.length 8 hb
            rw [List.cons_append]
            rw [rlpDecodeOne]
            rw [if_neg (by omega), if_neg (by omega), if_pos (by omega)]
            simp only [Nat.add_sub_cancel_left]
            rw [List.append_assoc]
            rw [if_neg (by simp)]
            simp only [List.take_left, List.drop_left, beNat_natToBE]
            rw [if_neg (by simp only [List.length_append]; omega)]
      | .list l =>
        simp only [itemBounded] at hb
        have hfl : listFuel l ≤ fuel := by
          simp only [itemFuel] at hf
          omega
        have hdl := ih.2 l hb hfl
        show rlpDecodeOne (fuel + 1) (rlpEncode (.list l) ++ rest) = some (.list l, rest)
        unfold rlpEncode
        dsimp only
        split
        · next hshort =>
          rw [List.cons_append]
          rw [rlpDecodeOne]
          rw [if_neg (by omega), if_neg (by omega), if_neg (by omega), if_pos (by omega)]
          simp only [Nat.add_sub_cancel_left]
          rw [if_neg (by simp)]
          rw [List.take_left, List.drop_left, hdl]
        · next hlong =>
          have hpl55 : 55 < (rlpPayload l).length := by omega
          have hll1 : 1 ≤ (natToBE (rlpPayload l).length).length := by
            have := natToBE_ne_nil (rlpPayload l).length (by omega)
            cases hc : natToBE (rlpPayload l).length with
            | nil => exact absurd hc this
            | cons y ys => simp [hc]
          rw [List.cons_append]
          rw [rlpDecodeOne]
          rw [if_neg (by omega), if_neg (by omega), if_neg (by omega), if_neg (by omega)]
          simp only [Nat.add_sub_cancel_left]
          rw [List.append_assoc]
          rw [if_neg (by simp)]
          simp only [List.take_left, List.drop_left, beNat_natToBE]
          rw [hdl]
          rw [if_neg (by simp only [List.length_append]; omega)]
    · intro l hb hf
      match l with
      | [] =>
        show rlpDecodeList (fuel + 1) [] = some []
        rw [rlpDecodeList]
      | x :: xs =>
        simp only [listBounded, Bool.and_eq_true] at hb
        have hfx : itemFuel x ≤ fuel := by
          simp only [listFuel] at hf
          omega
        have hfxs : listFuel xs ≤ fuel := by
          simp only [listFuel] at hf
          omega
        rw [rlpPayload_cons]
        obtain ⟨y, ys, heq⟩ : ∃ y ys, rlpEncode x ++ rlpPayload xs = y :: ys := by
          cases hc : rlpEncode x with
          | nil =>
            have := rlpEncode_length_pos x
            rw [hc] at this
            simp at this
          | cons y ys => exact ⟨y, ys ++ rlpPayload xs, rfl⟩
        rw [heq, rlpDecodeList, ← heq]
        rw [ih.1 x (rlpPayload xs) hb.1 hfx]
        dsimp only
        rw [ih.2 xs hb.2 hfxs]
        simp

theorem rlpDecode_rlpEncode (it : Item) (hb : itemBounded it = true) :
    rlpDecode (rlpEncode it) = some it := by
  have hfuel : itemFuel it ≤ 2 * (rlpEncode it).length :=
    (fuel_bound (sizeOf it)).1 it (Nat.le_refl _)
  have := (rlp_roundtrip (2 * (rlpEncode it).length)).1 it [] hb hfuel
  rw [List.append_nil] at this
  unfold rlpDecode
  rw [this]

theorem sigListOfItems_map (sigs : List SignatureData) :
    sigListOfItems (sigs.map sigToItem) = some sigs := by
  induction sigs with
  | nil => rfl
  | cons s ss ih => simp [sigListOfItems, itemToSig, sigToItem, ih]

theorem sigItems_bounded (sigs : List SignatureData) (h : sigs.all sigWellFormed = true) :
    listBounded (sigs.map sigToItem) = true := by
  induction sigs with
  | nil => rfl
  | cons s ss ih =>
    simp only [List.all_cons, Bool.and_eq_true] at h
    obtain ⟨⟨hv, hr⟩, hs⟩ := by
      simpa only [sigWellFormed, Bool.and_eq_true, decide_eq_true_eq] using h.1
    simp only [List.map_cons, listBounded, Bool.and_eq_true]
    refine ⟨?_, ih h.2⟩
    norm_num at hv hr hs
    simp [sigToItem, itemBounded, listBounded, hv, hr, hs]

theorem decode_wire (nb gpb gb fromA inp fp : List Nat) (sigs fpsigs : List SignatureData)
    (hb : listBounded (txWireItems nb gpb gb fromA inp fp sigs fpsigs) = true) :
    FDCDATx.decode (TX_TYPE_TAG :: rlpEncode (.list (txWireItems nb gpb gb fromA inp fp sigs fpsigs))) =
      mkFDCDATx { nonce := some (beNat nb), gasPrice := some (beNat gpb), gas := some (beNat gb),
                  fromAddress := some fromA, input := some inp, data := none,
                  signatures := some sigs, feePayer := some fp,
                  feePayerSignatures := some fpsigs } := by
  have hd := rlpDecode_rlpEncode (.list (txWireItems nb gpb gb fromA inp fp sigs fpsigs))
    (by simpa [itemBounded] using hb)
  unfold FDCDATx.decode txDecodeObj
  dsimp only
  rw [if_pos rfl, hd]
  simp only [txWireItems, List.getElem?_cons_zero, List.getElem?_cons_succ,
             decodeNatField, decodeBytesField, decodeSigsField, sigListOfItems_map]
  rfl

theorem mk_decoded (n gp g : Nat) (fromA inp fp : List Nat)
    (sigs fpsigs : List SignatureData)
    (hfrom : isAddress fromA = true) (hfp : isAddress fp = true) :
    mkFDCDATx { nonce := some n, gasPrice := some gp, gas := some g,
                fromAddress := some fromA, input := some inp, data := none,
                signatures := some sigs, feePayer := some fp,
                feePayerSignatures := some fpsigs } =
      Except.ok { nonce := some n, gasPrice := some gp, gas := some g, fromAddress := fromA,
                  input := inp, signatures := sigs, feePayer := fp,
                  feePayerSignatures := fpsigs } := by
  simp only [mkFDCDATx, hfrom, hfp, if_true, Option.orElse]
  rfl

theorem exceptBind_ok {ε α β : Type} (a : α) (f : α → Except ε β) :
    (Except.ok a : Except ε α) >>= f = f a := rfl

theorem exceptBind_error {ε α β : Type} (e : ε) (f : α → Except ε β) :
    (Except.error e : Except ε α) >>= f = Except.error e := rfl

theorem decryptKeyOne_encryptKeyOne (P : CryptoPrims) (pk : PrivateKey)
    (password : List Nat) (options : EncOptions) (c : CryptoObj)
    (hinv : ∀ name key iv data, P.cipherDec name key iv (P.cipherEnc name key iv data) = data)
    (henc : encryptKeyOne P pk password options = Except.ok c) :
    decryptKeyOne P c password = Except.ok pk.privateKey := by
  unfold encryptKeyOne at henc
  dsimp only at henc
  by_cases h2 : P.cipherSupported (jsOrStr options.cipher "aes-128-ctr") = true
  on_goal 2 =>
    exfalso
    have h2f : P.cipherSupported (jsOrStr options.cipher "aes-128-ctr") = false := by
      revert h2
      cases P.cipherSupported (jsOrStr options.cipher "aes-128-ctr") <;> simp
    unfold encryptFinish at henc
    rw [h2f] at henc
    by_cases h1 : jsOrStr options.kdf "scrypt" = "pbkdf2"
    · rw [if_pos h1] at henc
      simp at henc
    · rw [if_neg h1] at henc
      by_cases h1' : jsOrStr options.kdf "scrypt" = "scrypt"
      · rw [if_pos h1'] at henc
        simp at henc
      · rw [if_neg h1'] at henc
        simp at henc
  by_cases h1 : jsOrStr options.kdf "scrypt" = "pbkdf2"
  · rw [if_pos h1] at henc
    unfold encryptFinish at henc
    rw [h2] at henc
    rw [if_neg (by simp)] at henc
    injection henc with hc
    subst hc
    unfold decryptKeyOne deriveKey
    dsimp only
    rw [h1]
    rw [if_neg (by decide), if_pos rfl, if_neg (by simp)]
    dsimp only
    rw [if_neg (by simp), if_neg (by simp [h2])]
    simp only [Option.getD_some]
    rw [hinv]
  · by_cases h1' : jsOrStr options.kdf "scrypt" = "scrypt"
    · rw [if_neg h1, if_pos h1'] at henc
      unfold encryptFinish at henc
      rw [h2] at henc
      rw [if_neg (by simp)] at henc
      injection henc with hc
      subst hc
      unfold decryptKeyOne deriveKey
      dsimp only
      rw [h1']
      rw [if_pos rfl]
      dsimp only
      rw [if_neg (by simp), if_neg (by simp [h2])]
      simp only [Option.getD_some]
      rw [hinv]
    · rw [if_neg h1, if_neg h1'] at henc
      simp at henc

theorem decryptKeyList_roundtrip (P : CryptoPrims) (password : List Nat) (options : EncOptions)
    (hinv : ∀ name key iv data, P.cipherDec name key iv (P.cipherEnc name key iv data) = data) :
    ∀ (keys : List PrivateKey) (l : List CryptoObj),
      encryptKeyList P keys password options = Except.ok l →
      decryptKeyList P l password = Except.ok (keys.map (fun k => k.privateKey)) := by
  intro keys
  induction keys with
  | nil =>
    intro l henc
    simp only [encryptKeyList, List.mapM_nil] at henc
    injection henc with h
    subst h
    rfl
  | cons k ks ih =>
    intro l henc
    simp only [encryptKeyList, List.mapM_cons] at henc
    cases hE : encryptKeyOne P k password options with
    | error e =>
      rw [hE, exceptBind_error] at henc
      exact absurd henc (by simp)
    | ok c =>
      rw [hE, exceptBind_ok] at henc
      cases hM : List.mapM (fun k => encryptKeyOne P k password options) ks with
      | error e =>
        rw [hM, exceptBind_error] at henc
        exact absurd henc (by simp)
      | ok cs =>
        rw [hM, exceptBind_ok] at henc
        injection henc with h
        subst h
        simp only [decryptKeyList, List.mapM_cons]
        rw [decryptKeyOne_encryptKeyOne P k password options c hinv hE, exceptBind_ok]
        have ihcs : decryptKeyList P cs password = Except.ok (ks.map (fun k => k.privateKey)) :=
      ih cs hM
        rw [show List.mapM (fun e => decryptKeyOne P e password) cs =
              Except.ok (ks.map (fun k => k.privateKey)) from ihcs, exceptBind_ok]
        rfl

theorem decryptRoleSlot_roundtrip (P : CryptoPrims) (password : List Nat) (options : EncOptions)
    (hinv : ∀ name key iv data, P.cipherDec name key iv (P.cipherEnc name key iv data) = data)
    (keys : List PrivateKey) (l : List CryptoObj)
    (henc : encryptKeyList P keys password options = Except.ok l) :
    decryptRoleSlot P (some (.arr l)) password =
      Except.ok ((keys.map (fun k => k.privateKey)).map some) := by
  have hd := decryptKeyList_roundtrip P password options hinv keys l henc
  cases keys with
  | nil =>
    simp only [encryptKeyList, List.mapM_nil] at henc
    injection henc with h
    subst h
    rfl
  | cons k ks =>
    cases l with
    | nil =>
      exfalso
      have : decryptKeyList P [] password = Except.ok [] := rfl
      rw [this] at hd
      injection hd with h
      simp at h
    | cons c cs =>
      show (decryptKeyList P (c :: cs) password).map (fun ks => ks.map some) = _
      rw [hd]
      rfl

theorem mapM_obj_decrypt (P : CryptoPrims) (password : List Nat) :
    ∀ l : List CryptoObj,
      (l.map KElem.obj).mapM (fun (e : KElem) =>
        match e with
        | .obj c => decryptKeyOne P c password
        | .arr _ => Except.error .unsupportedKdf) = decryptKeyList P l password := by
  intro l
  induction l with
  | nil => rfl
  | cons c cs ih =>
    simp only [List.map_cons, List.mapM_cons, decryptKeyList]
    rw [show ((cs.map KElem.obj).mapM (fun (e : KElem) =>
          match e with
          | .obj c => decryptKeyOne P c password
          | .arr _ => Except.error .unsupportedKdf)) = decryptKeyList P cs password from ih]
    rfl

theorem decryptFlat_roundtrip (P : CryptoPrims) (password : List Nat) (options : EncOptions)
    (hinv : ∀ name key iv data, P.cipherDec name key iv (P.cipherEnc name key iv data) = data)
    (keys : List PrivateKey) (l : List CryptoObj) (hne : keys ≠ [])
    (henc : encryptKeyList P keys password options = Except.ok l) :
    decryptFlat P (l.map .obj) password =
      Except.ok (some (keys.map (fun k => k.privateKey))) := by
  have hd := decryptKeyList_roundtrip P password options hinv keys l henc
  cases l with
  | nil =>
    exfalso
    have : decryptKeyList P [] password = Except.ok [] := rfl
    rw [this] at hd
    injection hd with h
    have := List.map_eq_nil_iff.mp h.symm
    exact hne this
  | cons c cs =>
    show ((((c :: cs).map KElem.obj).mapM (fun (e : KElem) =>
        match e with
        | .obj c => decryptKeyOne P c password
        | .arr _ => Except.error .unsupportedKdf)).map some) = _
    rw [mapM_obj_decrypt, hd]
    rfl

theorem mapM_mkPrivateKey (l : List PrivateKey)
    (h32 : ∀ k ∈ l, k.privateKey.length = 32) :
    ((l.map (fun k => k.privateKey)).map some).mapM mkPrivateKey = Except.ok l := by
  induction l with
  | nil => rfl
  | cons k ks ih =>
    simp only [List.map_cons, List.mapM_cons]
    have hk : mkPrivateKey (some k.privateKey) = Except.ok k := by
      unfold mkPrivateKey
      dsimp only
      rw [if_pos (h32 k (by simp))]
    rw [hk, exceptBind_ok, ih (fun k hk => h32 k (by simp [hk])), exceptBind_ok]
    rfl

theorem fillRoleKey_some (keyInput : List (List (Option (List Nat)))) (i : Nat)
    (l : List PrivateKey)
    (hget : keyInput[i]? = some ((l.map (fun k => k.privateKey)).map some))
    (hmax : l.length ≤ MAXIMUM_KEY_NUM)
    (h32 : ∀ k ∈ l, k.privateKey.length = 32) :
    fillRoleKey keyInput i = Except.ok l := by
  unfold fillRoleKey
  rw [hget]
  dsimp only
  rw [if_neg (by simp only [List.length_map]; omega)]
  exact mapM_mkPrivateKey l h32

theorem createWithRoleBasedKey_mapped (address : List Nat) (k0 k1 k2 : List PrivateKey)
    (haddr : isAddress address = true)
    (hm0 : k0.length ≤ MAXIMUM_KEY_NUM) (hm1 : k1.length ≤ MAXIMUM_KEY_NUM)
    (hm2 : k2.length ≤ MAXIMUM_KEY_NUM)
    (h320 : ∀ k ∈ k0, k.privateKey.length = 32)
    (h321 : ∀ k ∈ k1, k.privateKey.length = 32)
    (h322 : ∀ k ∈ k2, k.privateKey.length = 32) :
    Keyring.createWithRoleBasedKey address
      [(k0.map (fun k => k.privateKey)).map some, (k1.map (fun k => k.privateKey)).map some,
       (k2.map (fun k => k.privateKey)).map some] =
      Except.ok ⟨address, [k0, k1, k2]⟩ := by
  unfold Keyring.createWithRoleBasedKey
  rw [if_neg (by simp [isRoleBasedKeysFormat, RoleLast])]
  rw [if_neg (by simp [haddr])]
  unfold formattingForKeyInKeyring
  rw [fillRoleKey_some _ 0 k0 rfl hm0 h320, exceptBind_ok]
  rw [fillRoleKey_some _ 1 k1 rfl hm1 h321, exceptBind_ok]
  rw [fillRoleKey_some _ 2 k2 rfl hm2 h322, exceptBind_ok]
  rfl

theorem createWithRoleBasedKey_flat (address : List Nat) (k0 : List PrivateKey)
    (haddr : isAddress address = true)
    (hm0 : k0.length ≤ MAXIMUM_KEY_NUM)
    (h320 : ∀ k ∈ k0, k.privateKey.length = 32)
    (hne : k0 ≠ []) :
    Keyring.createWithRoleBasedKey address
      ([(k0.map (fun k => k.privateKey)).map some] ++
        List.replicate (RoleLast - ((k0.map (fun k => k.privateKey)).map some).length) []) =
      Except.ok ⟨address, [k0, [], []]⟩ := by
  have h1 : 1 ≤ k0.length := by
    cases k0 with
    | nil => exact absurd rfl hne
    | cons a as => simp
  simp only [List.length_map]
  have hcases : RoleLast - k0.length = 0 ∨ RoleLast - k0.length = 1 ∨ RoleLast - k0.length = 2 := by
    unfold RoleLast
    omega
  rcases hcases with h | h | h <;> rw [h] <;>
    simp only [List.replicate_succ, List.replicate_zero, List.cons_append, List.nil_append,
      List.append_nil]
  · unfold Keyring.createWithRoleBasedKey
    rw [if_neg (by simp [isRoleBasedKeysFormat, RoleLast])]
    rw [if_neg (by simp [haddr])]
    unfold formattingForKeyInKeyring
    rw [fillRoleKey_some _ 0 k0 rfl hm0 h320, exceptBind_ok]
    rw [show fillRoleKey [(k0.map (fun k => k.privateKey)).map some] 1 = Except.ok [] from rfl,
        exceptBind_ok]
    rw [show fillRoleKey [(k0.map (fun k => k.privateKey)).map some] 2 = Except.ok [] from rfl,
        exceptBind_ok]
    rfl
  · unfold Keyring.createWithRoleBasedKey
    rw [if_neg (by simp [isRoleBasedKeysFormat, RoleLast])]
    rw [if_neg (by simp [haddr])]
    unfold formattingForKeyInKeyring
    rw [fillRoleKey_some _ 0 k0 rfl hm0 h320, exceptBind_ok]
    rw [show fillRoleKey [(k0.map (fun k => k.privateKey)).map some, []] 1 = Except.ok [] from rfl,
        exceptBind_ok]
    rw [show fillRoleKey [(k0.map (fun k => k.privateKey)).map some, []] 2 = Except.ok [] from rfl,
        exceptBind_ok]
    rfl
  · unfold Keyring.createWithRoleBasedKey
    rw [if_neg (by simp [isRoleBasedKeysFormat, RoleLast])]
    rw [if_neg (by simp [haddr])]
    unfold formattingForKeyInKeyring
    rw [fillRoleKey_some _ 0 k0 rfl hm0 h320, exceptBind_ok]
    rw [show fillRoleKey [(k0.map (fun k => k.privateKey)).map some, [], []] 1 = Except.ok [] from rfl,
        exceptBind_ok]
    rw [show fillRoleKey [(k0.map (fun k => k.privateKey)).map some, [], []] 2 = Except.ok [] from rfl,
        exceptBind_ok]
    rfl

/-- Claim C2: for every Keyring of the simple, weighted-multisig or
role-based shape (valid address, at most MAXIMUM_KEY_NUM well-formed
keys per role, not all roles empty), every password and every options
object, whenever encryption succeeds (in particular for the supported
KDFs scrypt and pbkdf2 and a supported cipher), decrypting the produced
keystore with the same password yields a Keyring equal to the original:
same address and the same role-partitioned key lists in the same
order.  The cryptographic primitives are abstract, assuming only that
deciphering inverts ciphering. -/
theorem C2_encrypt_decrypt_roundtrip (P : CryptoPrims) (kr : Keyring) (password : List Nat)
    (options : EncOptions) (k0 k1 k2 : List PrivateKey)
    (hkeys : kr.keys = [k0, k1, k2])
    (haddr : isAddress kr.address = true)
    (hm0 : k0.length ≤ MAXIMUM_KEY_NUM) (hm1 : k1.length ≤ MAXIMUM_KEY_NUM)
    (hm2 : k2.length ≤ MAXIMUM_KEY_NUM)
    (h320 : ∀ k ∈ k0, k.privateKey.length = 32)
    (h321 : ∀ k ∈ k1, k.privateKey.length = 32)
    (h322 : ∀ k ∈ k2, k.privateKey.length = 32)
    (hne : ¬(k0 = [] ∧ k1 = [] ∧ k2 = []))
    (hinv : ∀ name key iv data, P.cipherDec name key iv (P.cipherEnc name key iv data) = data) :
    ∀ ks, Keyring.encrypt P kr password options = Except.ok ks →
      Keyring.decrypt P ks password = Except.ok kr := by
  obtain ⟨addr, krkeys⟩ := kr
  simp only at hkeys haddr
  subst hkeys
  intro ks henc
  unfold Keyring.encrypt at henc
  simp only [List.getElem?_cons_zero, List.getElem?_cons_succ, Option.getD_some] at henc
  cases hE0 : encryptKeyList P k0 password options with
  | error e =>
    rw [hE0, exceptBind_error] at henc
    exact absurd henc (by simp)
  | ok e0 =>
  rw [hE0, exceptBind_ok] at henc
  cases hE1 : encryptKeyList P k1 password options with
  | error e =>
    rw [hE1, exceptBind_error] at henc
    exact absurd henc (by simp)
  | ok e1 =>
  rw [hE1, exceptBind_ok] at henc
  cases hE2 : encryptKeyList P k2 password options with
  | error e =>
    rw [hE2, exceptBind_error] at henc
    exact absurd henc (by simp)
  | ok e2 =>
  rw [hE2, exceptBind_ok] at henc
  injection henc with hks
  subst hks
  by_cases hrb : k1 = [] ∧ k2 = []
  · obtain ⟨rfl, rfl⟩ := hrb
    have hk0 : k0 ≠ [] := fun h => hne ⟨h, rfl, rfl⟩
    rw [if_neg (by simp)]
    obtain ⟨kh, kt, rfl⟩ : ∃ kh kt, k0 = kh :: kt := by
      cases k0 with
      | nil => exact absurd rfl hk0
      | cons a as => exact ⟨a, as, rfl⟩
    obtain ⟨c, cs, rfl⟩ : ∃ c cs, e0 = c :: cs := by
      simp only [encryptKeyList, List.mapM_cons] at hE0
      cases hE : encryptKeyOne P kh password options with
      | error e =>
        rw [hE, exceptBind_error] at hE0
        exact absurd hE0 (by simp)
      | ok c =>
        rw [hE, exceptBind_ok] at hE0
        cases hM : List.mapM (fun k => encryptKeyOne P k password options) kt with
        | error e =>
          rw [hM, exceptBind_error] at hE0
          exact absurd hE0 (by simp)
        | ok cs =>
          rw [hM, exceptBind_ok] at hE0
          injection hE0 with h
          exact ⟨c, cs, h.symm⟩
    unfold Keyring.decrypt formatEncrypted4
    dsimp only
    rw [if_neg (by simp), if_neg (by simp)]
    rw [exceptBind_ok]
    dsimp only [List.map_cons, List.head?]
    rw [show (KElem.obj c :: List.map KElem.obj cs) = (c :: cs).map KElem.obj from rfl]
    rw [decryptFlat_roundtrip P password options hinv (kh :: kt) (c :: cs) (by simp) hE0,
        exceptBind_ok]
    dsimp only
    exact createWithRoleBasedKey_flat addr (kh :: kt) haddr hm0 h320 (by simp)
  · have hor : k1.length > 0 ∨ k2.length > 0 := by
      rcases Decidable.em (k1 = []) with h1 | h1
      · rcases Decidable.em (k2 = []) with h2 | h2
        · exact absurd ⟨h1, h2⟩ hrb
        · exact Or.inr (by cases k2 with | nil => exact absurd rfl h2 | cons a as => simp)
      · exact Or.inl (by cases k1 with | nil => exact absurd rfl h1 | cons a as => simp)
    rw [if_pos hor]
    unfold Keyring.decrypt formatEncrypted4
    dsimp only
    rw [if_neg (by simp), if_neg (by simp)]
    rw [exceptBind_ok]
    dsimp only [List.head?]
    rw [show ([KElem.arr e0, KElem.arr e1, KElem.arr e2] : List KElem)[0]? = some (.arr e0) from rfl]
    rw [show ([KElem.arr e0, KElem.arr e1, KElem.arr e2] : List KElem)[1]? = some (.arr e1) from rfl]
    rw [show ([KElem.arr e0, KElem.arr e1, KElem.arr e2] : List KElem)[2]? = some (.arr e2) from rfl]
    rw [decryptRoleSlot_roundtrip P password options hinv k0 e0 hE0, exceptBind_ok]
    rw [decryptRoleSlot_roundtrip P password options hinv k1 e1 hE1, exceptBind_ok]
    rw [decryptRoleSlot_roundtrip P password options hinv k2 e2 hE2, exceptBind_ok]
    exact createWithRoleBasedKey_mapped addr k0 k1 k2 haddr hm0 hm1 hm2 h320 h321 h322

/-- Claim C1: per-key keystore decryption re-derives the key from the
stored kdf and kdfparams, recomputes the mac as the hash of derived-key
bytes 16..31 followed by the ciphertext, and compares it with the
stored mac before any decipher step; whenever the recomputed mac
differs from the stored one the call fails with the wrong-password
(mac-mismatch) classification, and it does so for every possible
decipher function, so the cipher is never invoked. -/
theorem C1_decrypt_mac_mismatch (P : CryptoPrims) (e : CryptoObj) (password : List Nat)
    (derivedKey : List Nat) (hd : deriveKey P e password = Except.ok derivedKey)
    (hmac : P.sha3 ((derivedKey.drop 16).take 16 ++ e.ciphertext) ≠ e.mac) :
    ∀ dec, decryptKeyOne { P with cipherDec := dec } e password =
      Except.error KErr.macMismatch := by
  intro dec
  have hd' : deriveKey { P with cipherDec := dec } e password = Except.ok derivedKey := hd
  unfold decryptKeyOne
  rw [hd']
  dsimp only
  rw [if_pos hmac]

/-- Witness for C1 at a concrete crypto object with a wrong stored mac
and a decipher function that would return garbage if it were invoked. -/
theorem C1_witness :
    decryptKeyOne { testPrims with cipherDec := fun _ _ _ _ => [99] } c1Obj wPw =
      Except.error KErr.macMismatch :=
  C1_decrypt_mac_mismatch testPrims c1Obj wPw
    ([10, 20, 5, 0, 0, 0, 32] ++ List.replicate 25 1) (by decide) (by decide)
    (fun _ _ _ _ => [99])

/-- Witness for C2: a role-based keyring encrypted with the default
options round-trips through decrypt. -/
theorem C2_witness :
    Keyring.decrypt testPrims
      ((Keyring.encrypt testPrims c2Kr wPw {}).toOption.getD dummyKeystore) wPw =
      Except.ok c2Kr :=
  C2_encrypt_decrypt_roundtrip testPrims c2Kr wPw {} [wPk] [wPk2] [] rfl (by decide)
    (by decide) (by decide) (by decide) (by decide) (by decide) (by decide)
    (by simp) (fun _ _ _ d => List.reverse_reverse d)
    ((Keyring.encrypt testPrims c2Kr wPw {}).toOption.getD dummyKeystore) (by rfl)

/-- Claim C3 counterexample: a keyring built by the public role-based
factory with every role empty; reading role TransactionKey — where both
the requested role's list and TransactionKey's list are empty — does
not fail, it returns the empty list, contradicting the claim that such
a read fails. -/
theorem C3_counterexample :
    (Keyring.createWithRoleBasedKey w20 [[], [], []]).bind
      (fun kr => Keyring.getKeyByRole kr (some RoleTransactionKey)) = Except.ok [] := by
  decide

/-- Claim C3 (amended): getKeyByRole fails when the role is undefined;
reading role TransactionKey returns its list unconditionally — even
when it is empty, since TransactionKey never falls back and the failure
check runs only for higher roles; a higher role with an empty list
falls back to TransactionKey's list and fails exactly when that list is
also empty. -/
theorem C3_getKeyByRole_spec (kr : Keyring) (k0 k1 k2 : List PrivateKey)
    (h : kr.keys = [k0, k1, k2]) :
    Keyring.getKeyByRole kr none = Except.error KErr.roleUndefined ∧
    Keyring.getKeyByRole kr (some RoleTransactionKey) = Except.ok k0 ∧
    (∀ r, r = RoleAccountUpdateKey ∨ r = RoleFeePayerKey →
      Keyring.getKeyByRole kr (some r) =
        (if (if r = RoleAccountUpdateKey then k1 else k2) = [] then
          (if k0 = [] then Except.error KErr.emptyDefaultRole else Except.ok k0)
        else Except.ok (if r = RoleAccountUpdateKey then k1 else k2))) := by
  refine ⟨rfl, ?_, ?_⟩
  · simp [Keyring.getKeyByRole, h, RoleTransactionKey]
  · intro r hr
    rcases hr with rfl | rfl
    · by_cases h1 : k1 = []
      · by_cases h0 : k0 = []
        · simp [Keyring.getKeyByRole, h, RoleAccountUpdateKey, RoleTransactionKey, h1, h0]
        · simp [Keyring.getKeyByRole, h, RoleAccountUpdateKey, RoleTransactionKey, h1, h0]
      · simp [Keyring.getKeyByRole, h, RoleAccountUpdateKey, RoleTransactionKey, h1,
          List.length_eq_zero]
    · by_cases h2 : k2 = []
      · by_cases h0 : k0 = []
        · simp [Keyring.getKeyByRole, h, RoleFeePayerKey, RoleAccountUpdateKey,
            RoleTransactionKey, h2, h0]
        · simp [Keyring.getKeyByRole, h, RoleFeePayerKey, RoleAccountUpdateKey,
            RoleTransactionKey, h2, h0]
      · simp [Keyring.getKeyByRole, h, RoleFeePayerKey, RoleAccountUpdateKey,
          RoleTransactionKey, h2, List.length_eq_zero]

/-- Witness for C3 (amended): a role with an empty list falls back to
the non-empty TransactionKey list. -/
theorem C3_witness :
    Keyring.getKeyByRole ⟨w20, [[wPk], [], []]⟩ (some RoleAccountUpdateKey) =
      Except.ok [wPk] := by
  have h := (C3_getKeyByRole_spec ⟨w20, [[wPk], [], []]⟩ [wPk] [] [] rfl).2.2
    RoleAccountUpdateKey (Or.inl rfl)
  rw [h]
  decide

/-- Claim C4: on a valid 32-byte digest with defined chainId and role,
signWithKey resolves the role's key list through the fallback rule
(getKeyByRole), fails for every index below zero or at least the
resolved list's length, and for every in-range index returns exactly
the signature the resolved list's index-th key's sign produces on the
digest and chainId; when the requested role's own list is empty but
TransactionKey's is not, the resolved list is TransactionKey's list. -/
theorem C4_signWithKey_spec {σ : Type} (ecsign : PrivateKey → List Nat → Nat → σ)
    (kr : Keyring) (transactionHash : List Nat) (cid : Nat) (r : Nat)
    (hhash : isValidHashStrict transactionHash = true)
    (keys : List PrivateKey) (hres : kr.getKeyByRole (some r) = Except.ok keys) :
    (∀ index : Int, index < 0 ∨ (keys.length : Int) ≤ index →
      isError (kr.signWithKey ecsign transactionHash (some cid) (some r) index) = true) ∧
    (∀ index : Int, 0 ≤ index → ∀ hlt : index.toNat < keys.length,
      kr.signWithKey ecsign transactionHash (some cid) (some r) index =
        PrivateKey.sign ecsign (keys.get ⟨index.toNat, hlt⟩) transactionHash cid) ∧
    (∀ tk, kr.keys[r]? = some [] → kr.keys[RoleTransactionKey]? = some tk → tk ≠ [] →
      r > RoleTransactionKey → keys = tk) := by
  refine ⟨?_, ?_, ?_⟩
  · intro index hidx
    unfold Keyring.signWithKey
    rw [if_neg (by simp [hhash])]
    dsimp only
    rw [hres, exceptBind_ok]
    rcases hidx with hneg | hge
    · rw [if_pos hneg]
      rfl
    · rw [if_neg (by omega), if_pos hge]
      rfl
  · intro index h0 hlt
    unfold Keyring.signWithKey
    rw [if_neg (by simp [hhash])]
    dsimp only
    rw [hres, exceptBind_ok]
    rw [if_neg (by omega), if_neg (by omega)]
    rw [List.getElem?_eq_getElem hlt]
    dsimp only
    rw [List.get_eq_getElem]
  · intro tk hr0 htk htkne hrgt
    unfold Keyring.getKeyByRole at hres
    dsimp only at hres
    rw [hr0] at hres
    dsimp only at hres
    rw [if_pos ⟨rfl, hrgt⟩] at hres
    rw [htk] at hres
    dsimp only at hres
    rw [if_neg (fun hx => htkne (List.eq_nil_of_length_eq_zero hx))] at hres
    injection hres with h
    exact h.symm

/-- Witness for C4: signing through the AccountUpdateKey role with an
empty list falls back to the TransactionKey key at index 0 and returns
exactly that key's signature. -/
theorem C4_witness :
    Keyring.signWithKey c4Ecsign ⟨w20, [[wPk], [], []]⟩ c4Hash (some 1)
      (some RoleAccountUpdateKey) 0 = PrivateKey.sign c4Ecsign wPk c4Hash 1 := by
  have h := (C4_signWithKey_spec c4Ecsign ⟨w20, [[wPk], [], []]⟩ c4Hash 1 RoleAccountUpdateKey
    (by decide) [wPk] (by decide)).2.1 0 (by decide) (by decide)
  exact h

/-- Claim C5 counterexample: this keyring has a non-empty
non-TransactionKey role (one account-update key) and no role with more
than one key, so the claim requires isDecoupled to report true; the
code compares only the first TransactionKey key's derived address and
returns false. -/
theorem C5_counterexample :
    (c5Kr.keys.getD RoleAccountUpdateKey []).length = 1 ∧
    (∀ l ∈ c5Kr.keys, l.length ≤ 1) ∧
    c5Derive ((c5Kr.keys.getD RoleTransactionKey []).getD 0 wPk2) = c5Kr.address ∧
    Keyring.isDecoupled c5Derive c5Kr = Except.ok false := by
  refine ⟨by decide, by decide, by decide, by decide⟩

/-- Claim C5 (amended): isDecoupled is true exactly when some role
holds more than one key, or when no role does and the first
TransactionKey key exists and derives an address different from the
stored one; whether a non-TransactionKey role is occupied is never
consulted (and with at most one key per role and an empty
TransactionKey list the call crashes instead of answering). -/
theorem C5_isDecoupled_spec (derive : PrivateKey → List Nat) (kr : Keyring) :
    Keyring.isDecoupled derive kr = Except.ok true ↔
      (kr.keys.any (fun l => l.length > 1) = true ∨
       (kr.keys.any (fun l => l.length > 1) = false ∧
        ∃ k, (kr.keys[0]?.getD [])[0]? = some k ∧ kr.address ≠ derive k)) := by
  unfold Keyring.isDecoupled
  by_cases ha : kr.keys.any (fun l => l.length > 1) = true
  · rw [if_pos ha]
    simp [ha]
  · have haf : kr.keys.any (fun l => l.length > 1) = false := by
      revert ha
      cases kr.keys.any (fun l => l.length > 1) <;> simp
    rw [if_neg ha]
    cases hh : (kr.keys[0]?.getD [])[0]? with
    | none => simp [haf]
    | some k => simp [haf]

/-- Claim C6: for a FeeDelegatedChainDataAnchoring transaction with
valid fields (defined, realistically bounded nonce, gasPrice and gas —
zero included —, well-formed from and feePayer addresses, non-empty
input, at least one sender and one fee-payer signature), decoding the
RLP encoding yields the transaction back; moreover decoding an
encoding whose three numeric fields carry any number of leading zero
padding bytes yields the same logical transaction, because decode
strips leading zeros instead of rejecting. -/
theorem C6_decode_encode_roundtrip (tx : FDCDATx) (n gp g : Nat)
    (hn : tx.nonce = some n) (hgp : tx.gasPrice = some gp) (hg : tx.gas = some g)
    (hnb : n < 256 ^ 55) (hgpb : gp < 256 ^ 55) (hgb : g < 256 ^ 55)
    (hfrom : isAddress tx.fromAddress = true) (hfp : isAddress tx.feePayer = true)
    (hinp : tx.input ≠ []) (hinpb : tx.input.length < 256 ^ 8)
    (hsigs : tx.signatures ≠ []) (hfpsigs : tx.feePayerSignatures ≠ [])
    (hsb : tx.signatures.all sigWellFormed = true)
    (hfpb : tx.feePayerSignatures.all sigWellFormed = true) :
    (∃ enc, getRLPEncoding tx = Except.ok enc ∧ FDCDATx.decode enc = Except.ok tx) ∧
    (∀ p1 p2 p3 : Nat, p1 < 2 ^ 60 → p2 < 2 ^ 60 → p3 < 2 ^ 60 →
      FDCDATx.decode (paddedTxEncoding tx p1 p2 p3) = Except.ok tx) := by
  obtain ⟨tn, tgp, tg, tfrom, tinp, tsigs, tfp, tfpsigs⟩ := tx
  dsimp only at hn hgp hg hfrom hfp hinp hinpb hsigs hfpsigs hsb hfpb
  subst hn
  subst hgp
  subst hg
  have hfromlen : tfrom.length = 20 := by
    simp only [isAddress, Bool.and_eq_true, beq_iff_eq] at hfrom
    exact hfrom.1
  have hfplen : tfp.length = 20 := by
    simp only [isAddress, Bool.and_eq_true, beq_iff_eq] at hfp
    exact hfp.1
  have hb1 : (natToBE n).length < 256 ^ 8 :=
    lt_of_le_of_lt (natToBE_length_le n 55 hnb) (by norm_num)
  have hb2 : (natToBE gp).length < 256 ^ 8 :=
    lt_of_le_of_lt (natToBE_length_le gp 55 hgpb) (by norm_num)
  have hb3 : (natToBE g).length < 256 ^ 8 :=
    lt_of_le_of_lt (natToBE_length_le g 55 hgb) (by norm_num)
  have hb4 : tfrom.length < 256 ^ 8 := by
    rw [hfromlen]
    norm_num
  have hb6 : tfp.length < 256 ^ 8 := by
    rw [hfplen]
    norm_num
  constructor
  · have hbw : listBounded (txWireItems (natToBE n) (natToBE gp) (natToBE g)
        tfrom tinp tfp tsigs tfpsigs) = true := by
      simp only [txWireItems, listBounded, itemBounded, Bool.and_eq_true, decide_eq_true_eq,
        and_true]
      exact ⟨hb1, hb2, hb3, hb4, hinpb, sigItems_bounded tsigs hsb, hb6,
        sigItems_bounded tfpsigs hfpb⟩
    refine ⟨_, rfl, ?_⟩
    rw [decode_wire _ _ _ _ _ _ _ _ hbw]
    simp only [beNat_natToBE]
    rw [mk_decoded n gp g tfrom tinp tfp tsigs tfpsigs hfrom hfp]
  · intro p1 p2 p3 hp1 hp2 hp3
    have hpow : (2 : Nat) ^ 60 + 55 < 256 ^ 8 := by norm_num
    have hq1 : (List.replicate p1 0 ++ natToBE n).length < 256 ^ 8 := by
      have := natToBE_length_le n 55 hnb
      simp only [List.length_append, List.length_replicate]
      omega
    have hq2 : (List.replicate p2 0 ++ natToBE gp).length < 256 ^ 8 := by
      have := natToBE_length_le gp 55 hgpb
      simp only [List.length_append, List.length_replicate]
      omega
    have hq3 : (List.replicate p3 0 ++ natToBE g).length < 256 ^ 8 := by
      have := natToBE_length_le g 55 hgb
      simp only [List.length_append, List.length_replicate]
      omega
    have hbw : listBounded (txWireItems (List.replicate p1 0 ++ natToBE n)
        (List.replicate p2 0 ++ natToBE gp) (List.replicate p3 0 ++ natToBE g)
        tfrom tinp tfp tsigs tfpsigs) = true := by
      simp only [txWireItems, listBounded, itemBounded, Bool.and_eq_true, decide_eq_true_eq,
        and_true]
      exact ⟨hq1, hq2, hq3, hb4, hinpb, sigItems_bounded tsigs hsb, hb6,
        sigItems_bounded tfpsigs hfpb⟩
    unfold paddedTxEncoding
    dsimp only [Option.getD_some]
    rw [decode_wire _ _ _ _ _ _ _ _ hbw]
    simp only [beNat_replicate_zero, beNat_natToBE]
    rw [mk_decoded n gp g tfrom tinp tfp tsigs tfpsigs hfrom hfp]

/-- Witness for C6: decoding a zero-padded encoding of the concrete
transaction recovers it. -/
theorem C6_witness :
    FDCDATx.decode (paddedTxEncoding c6Tx 2 0 1) = Except.ok c6Tx :=
  (C6_decode_encode_roundtrip c6Tx 0 25 90000 rfl rfl rfl (by norm_num) (by norm_num)
    (by norm_num) (by decide) (by decide) (by decide) (by decide) (by decide) (by decide)
    (by decide) (by decide)).2 2 0 1 (by norm_num) (by norm_num) (by norm_num)

/-- Claim C7: decode fails whenever the leading byte of the input is
not exactly the FeeDelegatedChainDataAnchoring type tag, regardless of
what the remaining bytes contain. -/
theorem C7_decode_wrong_tag (bytes : List Nat) (h : bytes.head? ≠ some TX_TYPE_TAG) :
    FDCDATx.decode bytes = Except.error TxErr.tagMismatch := by
  match bytes with
  | [] => rfl
  | t :: rest =>
    have ht : ¬(t = TX_TYPE_TAG) := by
      intro he
      exact h (by rw [List.head?_cons, he])
    unfold FDCDATx.decode txDecodeObj
    dsimp only
    rw [if_neg ht]
    rfl

/-- Witness for C7: a byte string starting with a different tag byte
followed by a perfectly well-formed remainder still fails. -/
theorem C7_witness :
    FDCDATx.decode (8 :: (paddedTxEncoding c6Tx 0 0 0).tail) =
      Except.error TxErr.tagMismatch :=
  C7_decode_wrong_tag (8 :: (paddedTxEncoding c6Tx 0 0 0).tail) (by decide)

theorem encryptKeyOne_ok (P : CryptoPrims) (pk : PrivateKey) (password : List Nat)
    (options : EncOptions)
    (hkdf : jsOrStr options.kdf "scrypt" = "scrypt" ∨ jsOrStr options.kdf "scrypt" = "pbkdf2")
    (hciph : P.cipherSupported (jsOrStr options.cipher "aes-128-ctr") = true) :
    isError (encryptKeyOne P pk password options) = false := by
  unfold encryptKeyOne encryptFinish
  dsimp only
  rcases hkdf with h | h
  · rw [h]
    rw [if_neg (by decide), if_pos rfl]
    rw [if_neg (by simp [hciph])]
    rfl
  · rw [h]
    rw [if_pos rfl]
    rw [if_neg (by simp [hciph])]
    rfl

/-- Claim C8 counterexample: a keyring with no key at all, built by the
public role-based factory, is not rejected by encryptV3 — the call
succeeds and produces a version-3 keystore whose crypto field is an
empty array, contradicting the claim that every keyring without exactly
one TransactionKey key fails. -/
theorem C8_counterexample :
    (Keyring.createWithRoleBasedKey w20 [[], [], []]).bind
      (fun kr => Keyring.encryptV3 testPrims kr wPw {}) =
      Except.ok { version := 3, id := List.replicate 16 7, address := w20,
                  crypto := some (.arr []), keyring := none } := by
  decide

/-- Claim C8 (amended): with a supported KDF and cipher, encryptV3
fails exactly when TransactionKey holds more than one key or some other
role is non-empty; with at most one TransactionKey key and the other
roles empty it succeeds — in particular a keyring with no key at all is
accepted and yields a version-3 record whose crypto is an empty
array rather than a single crypto object. -/
theorem C8_encryptV3_spec (P : CryptoPrims) (kr : Keyring) (password : List Nat)
    (options : EncOptions) (k0 k1 k2 : List PrivateKey) (hkeys : kr.keys = [k0, k1, k2])
    (hkdf : jsOrStr options.kdf "scrypt" = "scrypt" ∨ jsOrStr options.kdf "scrypt" = "pbkdf2")
    (hciph : P.cipherSupported (jsOrStr options.cipher "aes-128-ctr") = true) :
    (isError (Keyring.encryptV3 P kr password options) = false ↔
      (k0.length ≤ 1 ∧ k1 = [] ∧ k2 = [])) ∧
    (k0 = [] → k1 = [] → k2 = [] →
      Keyring.encryptV3 P kr password options =
        Except.ok (formatEncrypted3 P kr.address [] options)) := by
  obtain ⟨addr, krkeys⟩ := kr
  dsimp only at hkeys
  subst hkeys
  unfold Keyring.encryptV3
  simp only [List.getElem?_cons_zero, List.getElem?_cons_succ, Option.getD_some]
  by_cases h0 : k0.length > 1
  · rw [if_pos h0]
    constructor
    · simp only [isError]
      constructor
      · intro hx
        exact absurd hx (by simp)
      · intro hx
        omega
    · intro he _ _
      rw [he] at h0
      simp at h0
  · rw [if_neg h0]
    by_cases h1 : k1.length > 0
    · rw [if_pos h1]
      constructor
      · simp only [isError]
        constructor
        · intro hx
          exact absurd hx (by simp)
        · intro hx
          rw [hx.2.1] at h1
          simp at h1
      · intro _ he _
        rw [he] at h1
        simp at h1
    · rw [if_neg h1]
      by_cases h2 : k2.length > 0
      · rw [if_pos h2]
        constructor
        · simp only [isError]
          constructor
          · intro hx
            exact absurd hx (by simp)
          · intro hx
            rw [hx.2.2] at h2
            simp at h2
        · intro _ _ he
          rw [he] at h2
          simp at h2
      · rw [if_neg h2]
        have hk1 : k1 = [] := List.eq_nil_of_length_eq_zero (by omega)
        have hk2 : k2 = [] := List.eq_nil_of_length_eq_zero (by omega)
        cases hk : k0[0]? with
        | none =>
          dsimp only
          rw [exceptBind_ok]
          constructor
          · constructor
            · intro _
              exact ⟨by omega, hk1, hk2⟩
            · intro _
              rfl
          · intro _ _ _
            rfl
        | some k =>
          dsimp only
          cases hE : encryptKeyOne P k password options with
          | error e =>
            exfalso
            have := encryptKeyOne_ok P k password options hkdf hciph
            rw [hE] at this
            exact absurd this (by simp [isError])
          | ok c =>
            rw [show Except.map (fun c0 => [c0]) (Except.ok c : Except KErr CryptoObj) =
                  Except.ok [c] from rfl]
            rw [exceptBind_ok]
            constructor
            · constructor
              · intro _
                exact ⟨by omega, hk1, hk2⟩
              · intro _
                rfl
            · intro he _ _
              rw [he] at hk
              simp at hk

/-- Witness for C8 (amended): a single-TransactionKey keyring is
accepted by encryptV3. -/
theorem C8_witness :
    isError (Keyring.encryptV3 testPrims ⟨w20, [[wPk], [], []]⟩ wPw {}) = false :=
  ((C8_encryptV3_spec testPrims ⟨w20, [[wPk], [], []]⟩ wPw {} [wPk] [] [] rfl
    (Or.inl rfl) rfl).1).mpr (by decide)

/-- Claim C9: constructing a FeeDelegatedChainDataAnchoring transaction
with both input and data set raises a construction error, and
constructing with neither set also raises a construction error; in both
cases no transaction value is produced (the constructor returns an
error, never a transaction). -/
theorem C9_ctor_input_data (obj : CreateTxObj)
    (h : (obj.input.isSome = true ∧ obj.data.isSome = true) ∨
         (obj.input = none ∧ obj.data = none)) :
    isError (mkFDCDATx obj) = true := by
  obtain ⟨hi, hd⟩ | ⟨hi, hd⟩ := h
  · obtain ⟨iv, hiv⟩ := Option.isSome_iff_exists.mp hi
    obtain ⟨dv, hdv⟩ := Option.isSome_iff_exists.mp hd
    unfold mkFDCDATx
    rcases hfp : obj.feePayer with _ | f <;>
      rcases hfr : obj.fromAddress with _ | fr <;>
        simp only [hfp, hfr, hiv, hdv] <;>
          (try split_ifs) <;>
            first
            | rfl
            | simp_all
  · unfold mkFDCDATx
    rcases hfp : obj.feePayer with _ | f <;>
      rcases hfr : obj.fromAddress with _ | fr <;>
        simp only [hfp, hfr, hi, hd] <;>
          (try split_ifs) <;>
            rfl

/-- Witness for C9 at a construction argument with both input and data
set (and a valid from address, so the aliasing check itself is what
fires). -/
theorem C9_witness :
    isError (mkFDCDATx { fromAddress := some (List.replicate 20 4), input := some [1],
                         data := some [2] }) = true :=
  C9_ctor_input_data
    { fromAddress := some (List.replicate 20 4), input := some [1], data := some [2] }
    (Or.inl ⟨rfl, rfl⟩)

/-- Claim C10: for a keystore whose version is neither 3 nor 4, decrypt
only warns about the version: with a keyring field it behaves exactly
like a version-4 record with the same keyring, with a crypto field
exactly like a version-3 record with the same crypto; carrying both
crypto and keyring is rejected.  (The version-3-without-crypto and
version-4-without-keyring rejections concern those versions only and do
not fire here.) -/
theorem C10_decrypt_version_warn_only (P : CryptoPrims) (password : List Nat)
    (v : Nat) (idv addr : List Nat) (hv3 : v ≠ 3) (hv4 : v ≠ 4) :
    (∀ kelems : List KElem,
      Keyring.decrypt P { version := v, id := idv, address := addr, crypto := none,
                          keyring := some kelems } password =
      Keyring.decrypt P { version := 4, id := idv, address := addr, crypto := none,
                          keyring := some kelems } password) ∧
    (∀ c : KElem,
      Keyring.decrypt P { version := v, id := idv, address := addr, crypto := some c,
                          keyring := none } password =
      Keyring.decrypt P { version := 3, id := idv, address := addr, crypto := some c,
                          keyring := none } password) ∧
    (∀ (c : KElem) (kelems : List KElem),
      Keyring.decrypt P { version := v, id := idv, address := addr, crypto := some c,
                          keyring := some kelems } password =
      Except.error KErr.cryptoAndKeyring) := by
  refine ⟨?_, ?_, ?_⟩
  · intro kelems
    unfold Keyring.decrypt
    simp [hv3, hv4]
  · intro c
    unfold Keyring.decrypt
    simp [hv3, hv4]
  · intro c kelems
    unfold Keyring.decrypt
    simp [hv3, hv4]
    rfl

/-- Witness for C10: a version-7 record with a keyring field decrypts
exactly like the version-4 record with the same content. -/
theorem C10_witness :
    Keyring.decrypt testPrims { version := 7, id := [], address := w20, crypto := none,
                                keyring := some [] } wPw =
      Keyring.decrypt testPrims { version := 4, id := [], address := w20, crypto := none,
                                  keyring := some [] } wPw :=
  (C10_decrypt_version_warn_only testPrims wPw 7 [] w20 (by decide) (by decide)).1 []

end Caver
